import Mathlib

/-!
Shallow embedding of the conversational booking bot in `src/app.py`
(a Flask/Twilio WhatsApp webhook for a mobile tyre-fitting service),
together with theorems settling the frozen claims about its
natural-language specification.

The embedding models:
* the text utilities `norm` / `norm_lower` (Python `str.strip` / `str.lower`,
  ASCII fragment);
* the pure validators `parse_tyre_size`, `parse_postcode`,
  `parse_date_yyyy_mm_dd`, `parse_time_hh_mm` and the inline budget map,
  including faithful renderings of the regular expressions
  `TYRE_PATTERN`, `POSTCODE_PATTERN` and of CPython's `strptime`
  token regexes for `%Y`, `%m`, `%d`, `%H`, `%M`;
* the conversation/booking store (`conversations` keyed by `user_id`,
  append-only `bookings`) and the webhook handler `whatsapp`.

`date.today()` is modelled as an explicit `today : PDate` parameter: the
handler is otherwise a pure function of the store and the inbound message.
Replies are modelled as an enumeration `Reply` naming the distinct copy
blocks the Python code can emit.
-/

namespace TyreBot

/-! ## Text utilities (`norm`, `norm_lower`, Python whitespace) -/

/-- Python whitespace characters (ASCII fragment of `str.strip` / `\s`). -/
def pyWs (c : Char) : Bool :=
  c == ' ' || c == '\t' || c == '\n' || c == '\r' || c == '\x0b' || c == '\x0c'

/-- `str.strip()`: drop leading and trailing whitespace. -/
def stripChars (cs : List Char) : List Char :=
  ((cs.dropWhile pyWs).reverse.dropWhile pyWs).reverse

/-- `norm(s) = (s or "").strip()` from `app.py`. -/
def norm (s : String) : String :=
  (stripChars s.data).asString

/-- ASCII `str.lower`. -/
def pyLower (c : Char) : Char :=
  if 65 ≤ c.toNat ∧ c.toNat ≤ 90 then Char.ofNat (c.toNat + 32) else c

/-- ASCII `str.upper`. -/
def pyUpper (c : Char) : Char :=
  if 97 ≤ c.toNat ∧ c.toNat ≤ 122 then Char.ofNat (c.toNat - 32) else c

/-- `norm_lower(s) = norm(s).lower()` from `app.py`. -/
def norm_lower (s : String) : String :=
  ((stripChars s.data).map pyLower).asString

/-! ## `parse_tyre_size` and `TYRE_PATTERN`

`TYRE_PATTERN = ^\s*(\d{3})\s*\/\s*(\d{2})\s*[Rr]?\s*(\d{2})\s*$`.
The function first strips the input, removes every `' '` character, and
rewrites `'R'` to `'r'` before matching.  All sub-patterns of the regex are
fixed-width or separated by disjoint character classes, so a one-pass
greedy scan is equivalent to the backtracking regex engine. -/

/-- ASCII decimal digit (`\d`). -/
def pyDigit (c : Char) : Bool :=
  decide (48 ≤ c.toNat ∧ c.toNat ≤ 57)

/-- Numeric value of a digit character. -/
def digitVal (c : Char) : Nat := c.toNat - 48

/-- `\s*`: greedily skip whitespace. -/
def skipWs (cs : List Char) : List Char := cs.dropWhile pyWs

/-- One literal character. -/
def expectChar (c : Char) : List Char → Option (List Char)
  | x :: rest => if x = c then some rest else none
  | [] => none

/-- `(\d{3})`. -/
def take3Digits : List Char → Option (List Char × List Char)
  | a :: b :: c :: rest =>
    if pyDigit a = true ∧ pyDigit b = true ∧ pyDigit c = true then
      some ([a, b, c], rest)
    else none
  | _ => none

/-- `(\d{2})`. -/
def take2Digits : List Char → Option (List Char × List Char)
  | a :: b :: rest =>
    if pyDigit a = true ∧ pyDigit b = true then some ([a, b], rest) else none
  | _ => none

/-- `TYRE_PATTERN.match`, returning the three capture groups. -/
def tyreMatch (cs : List Char) : Option (List Char × List Char × List Char) :=
  match take3Digits (skipWs cs) with
  | none => none
  | some (w, r1) =>
    match expectChar '/' (skipWs r1) with
    | none => none
    | some r2 =>
      match take2Digits (skipWs r2) with
      | none => none
      | some (a, r3) =>
        let r5 := match skipWs r3 with
                  | c :: rest => if c = 'R' ∨ c = 'r' then rest else c :: rest
                  | [] => []
        match take2Digits (skipWs r5) with
        | none => none
        | some (rim, r6) =>
          if skipWs r6 = [] then some (w, a, rim) else none

/-- `parse_tyre_size` from `app.py`: strip, delete `' '`, lowercase `'R'`,
match `TYRE_PATTERN`, and render `f"{w}/{a}R{rim}"`. -/
def parse_tyre_size (text : String) : Option String :=
  match tyreMatch (((stripChars text.data).filter (fun c => !(c == ' '))).map
      (fun c => if c = 'R' then 'r' else c)) with
  | none => none
  | some (w, a, rim) => some ((w ++ '/' :: a ++ 'R' :: rim).asString)

example : parse_tyre_size "225/40R18" = some "225/40R18" := by decide
example : parse_tyre_size " 225/40 r 18 " = some "225/40R18" := by decide
example : parse_tyre_size "225/40 18" = some "225/40R18" := by decide
example : parse_tyre_size "22/40R18" = none := by decide

/-! ## `parse_postcode` and `POSTCODE_PATTERN`

`POSTCODE_PATTERN = ^[A-Z]{1,2}\d[A-Z\d]?\s*\d[A-Z]{2}$` compiled with
`re.IGNORECASE`.  `parse_postcode` strips, uppercases, collapses whitespace
runs to a single space (`re.sub(r"\s+", " ", t)`), and returns the processed
string itself when the pattern matches — it does not re-format it. -/

/-- `[A-Z]` under `re.IGNORECASE` (ASCII letters). -/
def pcLetter (c : Char) : Bool :=
  decide ((65 ≤ c.toNat ∧ c.toNat ≤ 90) ∨ (97 ≤ c.toNat ∧ c.toNat ≤ 122))

/-- `[A-Z\d]` under `re.IGNORECASE`. -/
def pcAlnum (c : Char) : Bool := pcLetter c || pyDigit c

/-- `re.sub(r"\s+", " ", ·)`: collapse each whitespace run to one space.
The flag records whether the previous character was whitespace. -/
def collapseWsAux : List Char → Bool → List Char
  | [], _ => []
  | c :: rest, prevWs =>
    if pyWs c then
      (if prevWs then collapseWsAux rest true else ' ' :: collapseWsAux rest true)
    else c :: collapseWsAux rest false

def collapseWs (cs : List Char) : List Char := collapseWsAux cs false

/-- `\s*\d[A-Z]{2}$`: since whitespace is disjoint from `\d`, greedy
whitespace skipping is exact. -/
def pcSuffix (cs : List Char) : Bool :=
  match cs.dropWhile pyWs with
  | [d, a, b] => pyDigit d && pcLetter a && pcLetter b
  | _ => false

/-- `[A-Z\d]?\s*\d[A-Z]{2}$` with the regex engine's backtracking on the
optional class rendered as a disjunction. -/
def pcOptAlnum : List Char → Bool
  | [] => false
  | c :: rest => (pcAlnum c && pcSuffix rest) || pcSuffix (c :: rest)

/-- `\d[A-Z\d]?\s*\d[A-Z]{2}$`. -/
def pcAfterLetters : List Char → Bool
  | d :: rest => pyDigit d && pcOptAlnum rest
  | [] => false

/-- `POSTCODE_PATTERN.match`: `[A-Z]{1,2}` rendered as one-or-two leading
letters (both alternatives tried). -/
def pcMatch : List Char → Bool
  | c1 :: rest =>
    pcLetter c1 &&
      (pcAfterLetters rest ||
        (match rest with
         | c2 :: rest2 => pcLetter c2 && pcAfterLetters rest2
         | [] => false))
  | [] => false

/-- `parse_postcode` from `app.py`. -/
def parse_postcode (text : String) : Option String :=
  let t := collapseWs ((stripChars text.data).map pyUpper)
  if pcMatch t then some t.asString else none

example : parse_postcode "b74 2aa" = some "B74 2AA" := by decide
example : parse_postcode "b742aa" = some "B742AA" := by decide
example : parse_postcode "B74   2AA" = some "B74 2AA" := by decide
example : parse_postcode "hello" = none := by decide

/-! ## `parse_date_yyyy_mm_dd` and `parse_time_hh_mm`

CPython's `_strptime` compiles `"%Y-%m-%d"` into the anchored regex
`(\d\d\d\d)-(1[0-2]|0[1-9]|[1-9])-(3[01]|[12]\d|0[1-9]|[1-9])`, requiring
the whole string to be consumed, and then builds a `datetime`, which raises
`ValueError` unless `1 ≤ year ≤ 9999` and the day fits the month.
Similarly `"%H:%M"` compiles into `(2[0-3]|[0-1]\d|\d):([0-5]\d|\d)`.
In each alternation the two-digit branches and the one-digit branch are
separated by what must follow (a literal or end of input), so committing
to the two-digit branch when its character class matches is equivalent to
the engine's backtracking.

`date.today()` is a free parameter `today : PDate` of the embedding. -/

/-- A Python `datetime.date` value. -/
structure PDate where
  year : Nat
  month : Nat
  day : Nat
deriving DecidableEq

/-- Python `date` comparison `d < today` (lexicographic). -/
def dateLt (a b : PDate) : Bool :=
  decide (a.year < b.year ∨ (a.year = b.year ∧
    (a.month < b.month ∨ (a.month = b.month ∧ a.day < b.day))))

/-- `%Y`: `(\d\d\d\d)`. -/
def read4Digits : List Char → Option (Nat × List Char)
  | a :: b :: c :: d :: rest =>
    if pyDigit a = true ∧ pyDigit b = true ∧ pyDigit c = true ∧ pyDigit d = true then
      some (1000 * digitVal a + 100 * digitVal b + 10 * digitVal c + digitVal d, rest)
    else none
  | _ => none

/-- `%m`: `(1[0-2]|0[1-9]|[1-9])`. -/
def readMonthTok : List Char → Option (Nat × List Char)
  | c1 :: c2 :: rest =>
    if c1 = '1' ∧ 48 ≤ c2.toNat ∧ c2.toNat ≤ 50 then
      some (10 + digitVal c2, rest)
    else if c1 = '0' ∧ 49 ≤ c2.toNat ∧ c2.toNat ≤ 57 then
      some (digitVal c2, rest)
    else if 49 ≤ c1.toNat ∧ c1.toNat ≤ 57 then
      some (digitVal c1, c2 :: rest)
    else none
  | [c1] => if 49 ≤ c1.toNat ∧ c1.toNat ≤ 57 then some (digitVal c1, []) else none
  | [] => none

/-- `%d`: `(3[01]|[12]\d|0[1-9]|[1-9])`. -/
def readDayTok : List Char → Option (Nat × List Char)
  | c1 :: c2 :: rest =>
    if c1 = '3' ∧ (c2 = '0' ∨ c2 = '1') then
      some (30 + digitVal c2, rest)
    else if (c1 = '1' ∨ c1 = '2') ∧ pyDigit c2 = true then
      some (10 * digitVal c1 + digitVal c2, rest)
    else if c1 = '0' ∧ 49 ≤ c2.toNat ∧ c2.toNat ≤ 57 then
      some (digitVal c2, rest)
    else if 49 ≤ c1.toNat ∧ c1.toNat ≤ 57 then
      some (digitVal c1, c2 :: rest)
    else none
  | [c1] => if 49 ≤ c1.toNat ∧ c1.toNat ≤ 57 then some (digitVal c1, []) else none
  | [] => none

/-- `strptime(t, "%Y-%m-%d")`, shape part: the compiled regex must consume
the whole string. -/
def parseYMDChars (cs : List Char) : Option (Nat × Nat × Nat) :=
  match read4Digits cs with
  | none => none
  | some (y, r1) =>
    match expectChar '-' r1 with
    | none => none
    | some r2 =>
      match readMonthTok r2 with
      | none => none
      | some (m, r3) =>
        match expectChar '-' r3 with
        | none => none
        | some r4 =>
          match readDayTok r4 with
          | none => none
          | some (d, r5) => if r5 = [] then some (y, m, d) else none

def isLeapYear (y : Nat) : Bool :=
  decide ((y % 4 = 0 ∧ y % 100 ≠ 0) ∨ y % 400 = 0)

def daysInMonth (y m : Nat) : Nat :=
  if m = 2 then (if isLeapYear y then 29 else 28)
  else if m = 4 ∨ m = 6 ∨ m = 9 ∨ m = 11 then 30
  else 31

/-- The `datetime` constructor's validity check (`MINYEAR`/`MAXYEAR`,
day in range for the month). -/
def validYMD (y m d : Nat) : Bool :=
  decide (1 ≤ y ∧ y ≤ 9999 ∧ 1 ≤ m ∧ m ≤ 12 ∧ 1 ≤ d ∧ d ≤ daysInMonth y m)

/-- Zero-pad to two digits (`isoformat` / `strftime`). -/
def pad2 (n : Nat) : String :=
  if n < 10 then "0" ++ toString n else toString n

/-- Zero-pad to four digits (`isoformat`). -/
def pad4 (n : Nat) : String :=
  if n < 10 then "000" ++ toString n
  else if n < 100 then "00" ++ toString n
  else if n < 1000 then "0" ++ toString n
  else toString n

/-- `date(y, m, d).isoformat()`. -/
def isoDate (y m d : Nat) : String := pad4 y ++ "-" ++ pad2 m ++ "-" ++ pad2 d

/-- `parse_date_yyyy_mm_dd` from `app.py`, with `date.today()` passed in as
`today`: parse `%Y-%m-%d` (returning `None` on `ValueError`), reject dates
strictly before `today`, and return `d.isoformat()`. -/
def parse_date_yyyy_mm_dd (today : PDate) (text : String) : Option String :=
  match parseYMDChars (stripChars text.data) with
  | none => none
  | some (y, m, d) =>
    if validYMD y m d = true then
      if dateLt ⟨y, m, d⟩ today = true then none else some (isoDate y m d)
    else none

example : parse_date_yyyy_mm_dd ⟨2026, 1, 1⟩ "2026-03-05" = some "2026-03-05" := by decide
example : parse_date_yyyy_mm_dd ⟨2026, 1, 1⟩ "2026-3-5" = some "2026-03-05" := by decide
example : parse_date_yyyy_mm_dd ⟨2026, 1, 1⟩ "2025-12-31" = none := by decide
example : parse_date_yyyy_mm_dd ⟨2026, 1, 1⟩ "2026-02-30" = none := by decide
example : parse_date_yyyy_mm_dd ⟨2026, 1, 1⟩ "05-03-2026" = none := by decide

/-- `%H`: `(2[0-3]|[0-1]\d|\d)`. -/
def readHourTok : List Char → Option (Nat × List Char)
  | c1 :: c2 :: rest =>
    if c1 = '2' ∧ 48 ≤ c2.toNat ∧ c2.toNat ≤ 51 then
      some (20 + digitVal c2, rest)
    else if (c1 = '0' ∨ c1 = '1') ∧ pyDigit c2 = true then
      some (10 * digitVal c1 + digitVal c2, rest)
    else if pyDigit c1 = true then
      some (digitVal c1, c2 :: rest)
    else none
  | [c1] => if pyDigit c1 = true then some (digitVal c1, []) else none
  | [] => none

/-- `%M`: `([0-5]\d|\d)`. -/
def readMinTok : List Char → Option (Nat × List Char)
  | c1 :: c2 :: rest =>
    if 48 ≤ c1.toNat ∧ c1.toNat ≤ 53 ∧ pyDigit c2 = true then
      some (10 * digitVal c1 + digitVal c2, rest)
    else if pyDigit c1 = true then
      some (digitVal c1, c2 :: rest)
    else none
  | [c1] => if pyDigit c1 = true then some (digitVal c1, []) else none
  | [] => none

/-- `strptime(t, "%H:%M")`, whole string consumed. -/
def parseHMChars (cs : List Char) : Option (Nat × Nat) :=
  match readHourTok cs with
  | none => none
  | some (h, r1) =>
    match expectChar ':' r1 with
    | none => none
    | some r2 =>
      match readMinTok r2 with
      | none => none
      | some (m, r3) => if r3 = [] then some (h, m) else none

/-- `parse_time_hh_mm` from `app.py`: parse `%H:%M`, re-serialize with
`strftime("%H:%M")`. -/
def parse_time_hh_mm (text : String) : Option String :=
  match parseHMChars (stripChars text.data) with
  | none => none
  | some (h, m) => some (pad2 h ++ ":" ++ pad2 m)

example : parse_time_hh_mm "10:30" = some "10:30" := by decide
example : parse_time_hh_mm "9:5" = some "09:05" := by decide
example : parse_time_hh_mm "24:00" = none := by decide
example : parse_time_hh_mm "ten" = none := by decide

/-- The inline `budget_map` dictionary from the `ASK_BUDGET` branch of the
handler, applied to the already-normalized `text`. -/
def budget_map (t : String) : Option String :=
  if t = "1" then some "Budget"
  else if t = "2" then some "Mid-range"
  else if t = "3" then some "Premium"
  else if t = "budget" then some "Budget"
  else if t = "mid" then some "Mid-range"
  else if t = "mid-range" then some "Mid-range"
  else if t = "premium" then some "Premium"
  else none

/-! ## Conversation state, bookings, and the store

The SQLite tables are modelled as an association list keyed by `user_id`
(`conversations` has `user_id TEXT PRIMARY KEY`, so upsert semantics) and a
list of bookings with the newest at the head (`AUTOINCREMENT id` ordering:
`ORDER BY id DESC LIMIT 1` reads the most recently inserted row).
`updated_at` / `created_at` timestamps are wall-clock strings with no
bearing on control flow and are omitted. -/

/-- One row of the `conversations` table. -/
structure Conv where
  step : String
  tyre_size : Option String
  postcode : Option String
  budget : Option String
  preferred_date : Option String
  preferred_time : Option String
deriving DecidableEq

/-- One row of the `bookings` table. -/
structure Booking where
  user_id : String
  tyre_size : String
  postcode : String
  budget : String
  preferred_date : String
  preferred_time : String
  status : String
deriving DecidableEq

structure DB where
  convs : List (String × Conv)
  bookings : List Booking
deriving DecidableEq

/-- The column defaults used by `upsert_conv` when inserting a new row. -/
def defaultConv : Conv :=
  { step := "MENU", tyre_size := none, postcode := none, budget := none,
    preferred_date := none, preferred_time := none }

/-- `SELECT ... WHERE user_id = ?` on the conversations table. -/
def lookupConv : List (String × Conv) → String → Option Conv
  | [], _ => none
  | p :: t, uid => if p.1 = uid then some p.2 else lookupConv t uid

/-- `get_conv` from `app.py` (`SELECT * ... WHERE user_id = ?`). -/
def get_conv (db : DB) (uid : String) : Option Conv :=
  lookupConv db.convs uid

/-- `UPDATE conversations SET ... WHERE user_id = ?`. -/
def setConv (l : List (String × Conv)) (uid : String) (c : Conv) :
    List (String × Conv) :=
  l.map fun p => if p.1 = uid then (uid, c) else p

/-- `upsert_conv` from `app.py`: the field assignments of one call are the
update `f` applied to the existing row, or to the defaults on insert. -/
def upsertConv (db : DB) (uid : String) (f : Conv → Conv) : DB :=
  match lookupConv db.convs uid with
  | some c => { db with convs := setConv db.convs uid (f c) }
  | none => { db with convs := (uid, f defaultConv) :: db.convs }

/-- `reset_conv` from `app.py`. -/
def reset_conv (db : DB) (uid : String) : DB :=
  upsertConv db uid (fun c =>
    { c with
      step := "MENU", tyre_size := none, postcode := none,
      budget := none, preferred_date := none, preferred_time := none })

/-- First booking row for `uid`, scanning newest-first. -/
def latestIn : List Booking → String → Option Booking
  | [], _ => none
  | b :: t, uid => if b.user_id = uid then some b else latestIn t uid

/-- `latest_booking_for_user` (`ORDER BY id DESC LIMIT 1`): newest first. -/
def latest_booking_for_user (db : DB) (uid : String) : Option Booking :=
  latestIn db.bookings uid

/-- Python truthiness of a nullable text column: `not conv[k]` holds for
`NULL` and for the empty string. -/
def pyFalsy : Option String → Bool
  | none => true
  | some s => s == ""

/-- The booking row inserted by `create_booking_from_conv`. -/
def mkBooking (uid : String) (c : Conv) : Booking :=
  { user_id := uid, tyre_size := c.tyre_size.getD "", postcode := c.postcode.getD "",
    budget := c.budget.getD "", preferred_date := c.preferred_date.getD "",
    preferred_time := c.preferred_time.getD "", status := "CONFIRMED" }

/-- `create_booking_from_conv` from `app.py`: `None` when the conversation
row is missing or any of the five needed fields is falsy; otherwise insert
and re-read the latest booking. -/
def create_booking_from_conv (db : DB) (uid : String) : DB × Option Booking :=
  match get_conv db uid with
  | none => (db, none)
  | some conv =>
    if pyFalsy conv.tyre_size || pyFalsy conv.postcode || pyFalsy conv.budget ||
        pyFalsy conv.preferred_date || pyFalsy conv.preferred_time then
      (db, none)
    else
      let db2 : DB := { db with bookings := mkBooking uid conv :: db.bookings }
      (db2, latest_booking_for_user db2 uid)

/-! ## The webhook handler

Each distinct reply text the handler can produce (`twiml(...)` of one of the
copy blocks) is one constructor of `Reply`. -/

inductive Reply
  | menu
  | cancelled
  | info
  | statusNone
  | statusBooking (b : Booking)
  | askTyre
  | askPostcode
  | askBudget
  | askDate
  | askTime
  | badTyre
  | badPostcode
  | badBudget
  | badDate
  | badTime
  | confirmSummary (c : Conv)
  | bookingConfirmed (b : Booking)
  | bookingError
  | confirmNudgeNo
  | confirmNudge
deriving DecidableEq

/-- `user_id = from_number or "unknown"`. -/
def effectiveUserId (from_number : String) : String :=
  if from_number = "" then "unknown" else from_number

/-- The `if not get_conv(user_id): upsert_conv(user_id, step="MENU")`
preamble of the handler. -/
def ensureConv (db : DB) (uid : String) : DB :=
  match get_conv db uid with
  | some _ => db
  | none => upsertConv db uid (fun c => { c with step := "MENU" })

/-- The step-dispatch section of the handler (everything from
`conv = get_conv(user_id)` down to the fallback).  `text` is the
normalized lowercase body, `body` the raw body. -/
def stepDispatch (today : PDate) (db : DB) (uid text body : String) : DB × Reply :=
  match get_conv db uid with
  | none => (db, Reply.menu)
  | some conv =>
    if conv.step = "MENU" then (db, Reply.menu)
    else if conv.step = "ASK_TYRE" then
      match parse_tyre_size body with
      | none => (db, Reply.badTyre)
      | some tyre =>
        (upsertConv db uid (fun c => { c with step := "ASK_POSTCODE", tyre_size := some tyre }),
         Reply.askPostcode)
    else if conv.step = "ASK_POSTCODE" then
      match parse_postcode body with
      | none => (db, Reply.badPostcode)
      | some pc =>
        (upsertConv db uid (fun c => { c with step := "ASK_BUDGET", postcode := some pc }),
         Reply.askBudget)
    else if conv.step = "ASK_BUDGET" then
      match budget_map text with
      | none => (db, Reply.badBudget)
      | some bud =>
        (upsertConv db uid (fun c => { c with step := "ASK_DATE", budget := some bud }),
         Reply.askDate)
    else if conv.step = "ASK_DATE" then
      match parse_date_yyyy_mm_dd today body with
      | none => (db, Reply.badDate)
      | some d =>
        (upsertConv db uid (fun c => { c with step := "ASK_TIME", preferred_date := some d }),
         Reply.askTime)
    else if conv.step = "ASK_TIME" then
      match parse_time_hh_mm body with
      | none => (db, Reply.badTime)
      | some tm =>
        let db2 := upsertConv db uid
          (fun c => { c with step := "CONFIRM", preferred_time := some tm })
        match get_conv db2 uid with
        | some conv2 => (db2, Reply.confirmSummary conv2)
        | none => (db2, Reply.menu)
    else if conv.step = "CONFIRM" then
      if text = "yes" ∨ text = "y" then
        let res := create_booking_from_conv db uid
        let db3 := reset_conv res.1 uid
        match res.2 with
        | none => (db3, Reply.bookingError)
        | some b => (db3, Reply.bookingConfirmed b)
      else if text = "no" ∨ text = "n" then (db, Reply.confirmNudgeNo)
      else (db, Reply.confirmNudge)
    else (upsertConv db uid (fun c => { c with step := "MENU" }), Reply.menu)

/-- Global-command checks and dispatch, on the ensured store. -/
def whatsappCore (today : PDate) (db : DB) (uid text body : String) : DB × Reply :=
  if text = "menu" ∨ text = "start" then
    (upsertConv db uid (fun c => { c with step := "MENU" }), Reply.menu)
  else if text = "cancel" ∨ text = "reset" then
    (reset_conv db uid, Reply.cancelled)
  else if text = "2" ∨ text = "info" ∨ text = "help" then
    (upsertConv db uid (fun c => { c with step := "MENU" }), Reply.info)
  else if text = "3" ∨ text = "status" then
    (db, match latest_booking_for_user db uid with
         | none => Reply.statusNone
         | some b => Reply.statusBooking b)
  else if text = "1" ∨ text = "book" ∨ text = "booking" then
    (upsertConv db uid (fun c =>
      { c with
        step := "ASK_TYRE", tyre_size := none, postcode := none,
        budget := none, preferred_date := none, preferred_time := none }),
     Reply.askTyre)
  else
    stepDispatch today db uid text body

/-- The `/whatsapp` webhook handler from `app.py`:
`text = norm_lower(body)`, `user_id = from_number or "unknown"`, ensure the
conversation row exists, then global commands and step dispatch. -/
def whatsapp (today : PDate) (db : DB) (from_number body : String) : DB × Reply :=
  whatsappCore today (ensureConv db (effectiveUserId from_number))
    (effectiveUserId from_number) (norm_lower body) body

/-! ## Spec-side predicates

These definitions follow the specification's words (not the code) and are
used to state the claims. -/

/-- The spec's closed step enumeration (code names). -/
def stepNames : List String :=
  ["MENU", "ASK_TYRE", "ASK_POSTCODE", "ASK_BUDGET", "ASK_DATE", "ASK_TIME", "CONFIRM"]

/-- "all five collected fields are non-empty". -/
def allFieldsNonEmpty (c : Conv) : Bool :=
  !(pyFalsy c.tyre_size || pyFalsy c.postcode || pyFalsy c.budget ||
    pyFalsy c.preferred_date || pyFalsy c.preferred_time)

/-- The normalized texts recognized as global commands (checked before step
dispatch). -/
def isGlobalCmd (t : String) : Bool :=
  t == "menu" || t == "start" || t == "cancel" || t == "reset" || t == "2" ||
  t == "info" || t == "help" || t == "3" || t == "status" || t == "1" ||
  t == "book" || t == "booking"

/-- "valid input for that step's field": whether the step's normalizer
accepts the raw body.  `MENU` collects no field, so nothing is valid. -/
def validForStep (today : PDate) (step body : String) : Bool :=
  if step = "ASK_TYRE" then (parse_tyre_size body).isSome
  else if step = "ASK_POSTCODE" then (parse_postcode body).isSome
  else if step = "ASK_BUDGET" then (budget_map (norm_lower body)).isSome
  else if step = "ASK_DATE" then (parse_date_yyyy_mm_dd today body).isSome
  else if step = "ASK_TIME" then (parse_time_hh_mm body).isSome
  else false

/-- Spec-side shape "4-digit year, hyphen, 2-digit month, hyphen, 2-digit
day" (the claim's "exactly match" format for dates). -/
def strictYMDShape (s : String) : Bool :=
  match s.data with
  | [y1, y2, y3, y4, h1, m1, m2, h2, d1, d2] =>
    pyDigit y1 && pyDigit y2 && pyDigit y3 && pyDigit y4 && h1 == '-' &&
    pyDigit m1 && pyDigit m2 && h2 == '-' && pyDigit d1 && pyDigit d2
  | _ => false

def allDigits (l : List Char) : Bool := l.all pyDigit

/-- Decimal value of a digit string. -/
def charsToNat (l : List Char) : Nat :=
  l.foldl (fun acc c => 10 * acc + digitVal c) 0

/-- The spec's per-row invariant: the step is in the closed enumeration and
every stored field value was produced by its field's normalizer. -/
def convInv (c : Conv) : Prop :=
  c.step ∈ stepNames ∧
  (c.tyre_size = none ∨ ∃ raw, parse_tyre_size raw = c.tyre_size) ∧
  (c.postcode = none ∨ ∃ raw, parse_postcode raw = c.postcode) ∧
  (c.budget = none ∨ ∃ raw, budget_map raw = c.budget) ∧
  (c.preferred_date = none ∨ ∃ t raw, parse_date_yyyy_mm_dd t raw = c.preferred_date) ∧
  (c.preferred_time = none ∨ ∃ raw, parse_time_hh_mm raw = c.preferred_time)

/-- The invariant over the whole conversations table. -/
def dbInv (db : DB) : Prop :=
  ∀ p ∈ db.convs, convInv p.2

/-! ## Store lemmas -/

lemma lookupConv_setConv_self {l : List (String × Conv)} {uid : String} (c : Conv)
    (h : lookupConv l uid ≠ none) : lookupConv (setConv l uid c) uid = some c := by
  induction l with
  | nil => simp [lookupConv] at h
  | cons p t ih =>
    by_cases hp : p.1 = uid
    · simp [setConv, lookupConv, hp]
    · simp only [setConv, lookupConv, hp, if_false, List.map_cons, if_neg hp] at h ⊢
      exact ih h

lemma get_conv_upsert_self (db : DB) (uid : String) (f : Conv → Conv) :
    get_conv (upsertConv db uid f) uid =
      some (f ((get_conv db uid).getD defaultConv)) := by
  unfold get_conv upsertConv
  cases h : lookupConv db.convs uid with
  | none => simp [h, lookupConv]
  | some c =>
    simp only [h, Option.getD_some]
    exact lookupConv_setConv_self (f c) (by simp [h])

lemma bookings_upsertConv (db : DB) (uid : String) (f : Conv → Conv) :
    (upsertConv db uid f).bookings = db.bookings := by
  unfold upsertConv
  cases h : lookupConv db.convs uid <;> simp

lemma bookings_reset_conv (db : DB) (uid : String) :
    (reset_conv db uid).bookings = db.bookings :=
  bookings_upsertConv db uid _

lemma ensureConv_of_some {db : DB} {uid : String} {c : Conv}
    (h : get_conv db uid = some c) : ensureConv db uid = db := by
  unfold ensureConv
  rw [h]

lemma bookings_ensureConv (db : DB) (uid : String) :
    (ensureConv db uid).bookings = db.bookings := by
  unfold ensureConv
  cases h : get_conv db uid
  · exact bookings_upsertConv db uid _
  · rfl

lemma convs_create_booking (db : DB) (uid : String) :
    (create_booking_from_conv db uid).1.convs = db.convs := by
  unfold create_booking_from_conv
  cases h : get_conv db uid with
  | none => rfl
  | some conv =>
    by_cases hf : (pyFalsy conv.tyre_size || pyFalsy conv.postcode || pyFalsy conv.budget ||
        pyFalsy conv.preferred_date || pyFalsy conv.preferred_time) = true
    · simp [hf]
    · simp [hf]

/-! ## Claims -/

/-- C1: the claim says that at step `ASK_BUDGET` an inbound `"2"` stores
`budget = "Mid-range"` and advances to `ASK_DATE` (and `"3"` stores
`"Premium"`).  The code's own budget prompt says the same ("1 = Budget,
2 = Mid-range, 3 = Premium"), but the global command checks intercept
`"2"` (info: step forced to `MENU`) and `"3"` (status) before the
`ASK_BUDGET` branch can run, so no budget is ever stored.  This theorem
evaluates the handler at the failing inputs. -/
theorem C1_budget_tokens_intercepted :
    whatsapp ⟨2026, 1, 1⟩
        (⟨[("u", ⟨"ASK_BUDGET", some "225/40R18", some "B742AA", none, none, none⟩)], []⟩ : DB)
        "u" "2" =
      (⟨[("u", ⟨"MENU", some "225/40R18", some "B742AA", none, none, none⟩)], []⟩, Reply.info) ∧
    whatsapp ⟨2026, 1, 1⟩
        (⟨[("u", ⟨"ASK_BUDGET", some "225/40R18", some "B742AA", none, none, none⟩)], []⟩ : DB)
        "u" "3" =
      (⟨[("u", ⟨"ASK_BUDGET", some "225/40R18", some "B742AA", none, none, none⟩)], []⟩,
       Reply.statusNone) := by
  constructor <;> decide

/-- C3 counterexample: sending the global `"info"` keyword does not leave
the step unchanged — at `ASK_TYRE` it forces the step back to `MENU`
(the handler runs `upsert_conv(user_id, step="MENU")` before replying). -/
theorem C3_counterexample :
    whatsapp ⟨2026, 1, 1⟩
        (⟨[("u", ⟨"ASK_TYRE", none, none, none, none, none⟩)], []⟩ : DB) "u" "info" =
      (⟨[("u", ⟨"MENU", none, none, none, none, none⟩)], []⟩, Reply.info) ∧
    ("MENU" : String) ≠ "ASK_TYRE" := by
  constructor <;> decide

/-- C4 counterexample: the location normalizer applied to `"b742aa"`
succeeds but returns `"B742AA"`, not the claimed `"B74 2AA"` — it
uppercases and collapses whitespace but never inserts a space. -/
theorem C4_counterexample :
    parse_postcode "b742aa" = some "B742AA" ∧ ("B742AA" : String) ≠ "B74 2AA" := by
  constructor <;> decide

/-- C4 amended: `parse_postcode "b742aa"` succeeds with the uppercased,
whitespace-collapsed input itself (`"B742AA"`, no space inserted), and at
the postcode step that value is stored and the step advances to
`ASK_BUDGET`. -/
theorem C4_amended_postcode_stored :
    parse_postcode "b742aa" = some "B742AA" ∧
    whatsapp ⟨2026, 1, 1⟩
        (⟨[("u", ⟨"ASK_POSTCODE", some "225/40R18", none, none, none, none⟩)], []⟩ : DB)
        "u" "b742aa" =
      (⟨[("u", ⟨"ASK_BUDGET", some "225/40R18", some "B742AA", none, none, none⟩)], []⟩,
       Reply.askBudget) := by
  constructor <;> decide

/-- C3 amended: for every current step, sending the global `"info"`
keyword emits the informational text and leaves all collected fields
unchanged, but sets the step to `MENU` (it is not left at its current
value); bookings are untouched. -/
theorem C3_amended_info_keeps_fields (today : PDate) (db : DB) (from_number body : String)
    (conv : Conv) (h : get_conv db (effectiveUserId from_number) = some conv)
    (hb : norm_lower body = "info") :
    (whatsapp today db from_number body).2 = Reply.info ∧
    get_conv (whatsapp today db from_number body).1 (effectiveUserId from_number) =
      some { conv with step := "MENU" } ∧
    (whatsapp today db from_number body).1.bookings = db.bookings := by
  unfold whatsapp whatsappCore
  rw [ensureConv_of_some h, hb]
  simp only [String.reduceEq, or_self, or_false, false_or, or_true, true_or,
    if_true, if_false, ite_true, ite_false]
  refine ⟨trivial, ?_, bookings_upsertConv db _ _⟩
  rw [get_conv_upsert_self, h]
  rfl

/-- C9: at every step (including `CONFIRM`), an inbound message whose
trimmed lowercase form is `"1"`, `"book"` or `"booking"` is handled before
step dispatch: it clears all five collected fields and sets the step to
`ASK_TYRE`, and no booking row is inserted — a user at `CONFIRM` who
replies `"1"` silently discards the pending booking. -/
theorem C9_book_keyword_restarts (today : PDate) (db : DB) (from_number body : String)
    (hb : norm_lower body = "1" ∨ norm_lower body = "book" ∨ norm_lower body = "booking") :
    (whatsapp today db from_number body).2 = Reply.askTyre ∧
    get_conv (whatsapp today db from_number body).1 (effectiveUserId from_number) =
      some ⟨"ASK_TYRE", none, none, none, none, none⟩ ∧
    (whatsapp today db from_number body).1.bookings = db.bookings := by
  unfold whatsapp whatsappCore
  rcases hb with hb | hb | hb <;>
    rw [hb] <;>
    simp only [String.reduceEq, or_self, or_false, false_or, or_true, true_or,
      if_true, if_false, ite_true, ite_false] <;>
    exact ⟨trivial, by rw [get_conv_upsert_self],
      by rw [bookings_upsertConv, bookings_ensureConv]⟩

/-- C2: at step `CONFIRM`, the confirming message (`"yes"`/`"y"` after
normalization) inserts a booking row if and only if all five collected
fields are non-empty immediately before the message; when any field is
empty no row is inserted. -/
theorem C2_booking_iff_all_fields (today : PDate) (db : DB) (from_number body : String)
    (conv : Conv)
    (h : get_conv db (effectiveUserId from_number) = some conv)
    (hstep : conv.step = "CONFIRM")
    (hb : norm_lower body = "yes" ∨ norm_lower body = "y") :
    (allFieldsNonEmpty conv = true →
      (whatsapp today db from_number body).1.bookings =
        mkBooking (effectiveUserId from_number) conv :: db.bookings) ∧
    (allFieldsNonEmpty conv = false →
      (whatsapp today db from_number body).1.bookings = db.bookings) := by
  unfold whatsapp whatsappCore
  rw [ensureConv_of_some h]
  have hmain : (stepDispatch today db (effectiveUserId from_number) (norm_lower body)
      body).1.bookings =
      (if allFieldsNonEmpty conv = true then
        mkBooking (effectiveUserId from_number) conv :: db.bookings else db.bookings) := by
    unfold stepDispatch
    rw [h]
    dsimp only
    rw [hstep]
    simp only [String.reduceEq, or_self, or_false, false_or, or_true, true_or,
      if_true, if_false, ite_true, ite_false]
    rw [if_pos hb]
    unfold create_booking_from_conv
    rw [h]
    dsimp only
    by_cases hor : (pyFalsy conv.tyre_size || pyFalsy conv.postcode || pyFalsy conv.budget ||
        pyFalsy conv.preferred_date || pyFalsy conv.preferred_time) = true
    · have hne : allFieldsNonEmpty conv = false := by
        simp [allFieldsNonEmpty, hor]
      rw [if_pos hor, hne]
      simp [bookings_reset_conv]
    · have hne : allFieldsNonEmpty conv = true := by
        simp only [allFieldsNonEmpty, Bool.not_eq_true']
        exact Bool.eq_false_iff.mpr hor
      rw [if_neg hor, hne]
      simp [bookings_reset_conv, latest_booking_for_user, latestIn, mkBooking]
  rcases hb with hb | hb <;> rw [hb] <;>
    simp only [String.reduceEq, or_self, or_false, false_or, or_true, true_or,
      if_true, if_false, ite_true, ite_false] <;>
    rw [hb] at hmain <;>
    constructor <;> intro hf <;> rw [hmain, hf] <;> simp

/-- Witness for C3 amended: a user mid-flow at `ASK_TYRE` sends `" INFO "`;
the tyre size survives but the step is reset to `MENU`. -/
theorem C3_amended_witness :
    norm_lower " INFO " = "info" ∧
    get_conv (whatsapp ⟨2026, 1, 1⟩
        (⟨[("u", ⟨"ASK_TYRE", some "225/40R18", none, none, none, none⟩)], []⟩ : DB)
        "u" " INFO ").1 "u" =
      some ⟨"MENU", some "225/40R18", none, none, none, none⟩ := by
  refine ⟨by decide, ?_⟩
  exact (C3_amended_info_keeps_fields ⟨2026, 1, 1⟩
    (⟨[("u", ⟨"ASK_TYRE", some "225/40R18", none, none, none, none⟩)], []⟩ : DB)
    "u" " INFO " ⟨"ASK_TYRE", some "225/40R18", none, none, none, none⟩
    (by decide) (by decide)).2.1

/-- Witness for C9: a user at `CONFIRM` with a fully-collected booking
replies `"1"`; the pending booking is discarded and the flow restarts. -/
theorem C9_witness :
    norm_lower "1" = "1" ∧
    get_conv (whatsapp ⟨2026, 1, 1⟩
        (⟨[("u", ⟨"CONFIRM", some "225/40R18", some "B74 2AA", some "Mid-range",
            some "2026-03-05", some "10:30"⟩)], []⟩ : DB) "u" "1").1 "u" =
      some ⟨"ASK_TYRE", none, none, none, none, none⟩ ∧
    (whatsapp ⟨2026, 1, 1⟩
        (⟨[("u", ⟨"CONFIRM", some "225/40R18", some "B74 2AA", some "Mid-range",
            some "2026-03-05", some "10:30"⟩)], []⟩ : DB) "u" "1").1.bookings = [] := by
  refine ⟨by decide, ?_, ?_⟩
  · exact (C9_book_keyword_restarts ⟨2026, 1, 1⟩
      (⟨[("u", ⟨"CONFIRM", some "225/40R18", some "B74 2AA", some "Mid-range",
          some "2026-03-05", some "10:30"⟩)], []⟩ : DB) "u" "1" (Or.inl (by decide))).2.1
  · exact (C9_book_keyword_restarts ⟨2026, 1, 1⟩
      (⟨[("u", ⟨"CONFIRM", some "225/40R18", some "B74 2AA", some "Mid-range",
          some "2026-03-05", some "10:30"⟩)], []⟩ : DB) "u" "1" (Or.inl (by decide))).2.2

/-- Witness for C2: with all five fields collected, `"yes"` at `CONFIRM`
inserts exactly the snapshot booking row. -/
theorem C2_witness :
    allFieldsNonEmpty ⟨"CONFIRM", some "225/40R18", some "B74 2AA", some "Mid-range",
        some "2026-03-05", some "10:30"⟩ = true ∧
    (whatsapp ⟨2026, 1, 1⟩
        (⟨[("u", ⟨"CONFIRM", some "225/40R18", some "B74 2AA", some "Mid-range",
            some "2026-03-05", some "10:30"⟩)], []⟩ : DB) "u" "yes").1.bookings =
      [mkBooking "u" ⟨"CONFIRM", some "225/40R18", some "B74 2AA", some "Mid-range",
          some "2026-03-05", some "10:30"⟩] := by
  refine ⟨by decide, ?_⟩
  exact (C2_booking_iff_all_fields ⟨2026, 1, 1⟩
    (⟨[("u", ⟨"CONFIRM", some "225/40R18", some "B74 2AA", some "Mid-range",
        some "2026-03-05", some "10:30"⟩)], []⟩ : DB) "u" "yes"
    ⟨"CONFIRM", some "225/40R18", some "B74 2AA", some "Mid-range",
        some "2026-03-05", some "10:30"⟩
    (by decide) (by decide) (Or.inl (by decide))).1 (by decide)

lemma isSome_false_eq_none {α : Type} {o : Option α} (h : o.isSome = false) :
    o = none := by
  cases o
  · rfl
  · simp at h

lemma not_global_ne {t : String} (hg : isGlobalCmd t = false) :
    t ≠ "menu" ∧ t ≠ "start" ∧ t ≠ "cancel" ∧ t ≠ "reset" ∧ t ≠ "2" ∧ t ≠ "info" ∧
    t ≠ "help" ∧ t ≠ "3" ∧ t ≠ "status" ∧ t ≠ "1" ∧ t ≠ "book" ∧ t ≠ "booking" := by
  simp only [isGlobalCmd, Bool.or_eq_false_iff, beq_eq_false_iff_ne, ne_eq] at hg
  tauto

/-- C5: at every step other than `CONFIRM`, an inbound message that is
neither a global command nor valid input for that step's field leaves the
whole store — step, collected fields, and bookings — exactly as it was;
only the reply differs. -/
theorem C5_invalid_input_preserves_state (today : PDate) (db : DB)
    (from_number body : String) (conv : Conv)
    (h : get_conv db (effectiveUserId from_number) = some conv)
    (hstep : conv.step ∈
      ["MENU", "ASK_TYRE", "ASK_POSTCODE", "ASK_BUDGET", "ASK_DATE", "ASK_TIME"])
    (hg : isGlobalCmd (norm_lower body) = false)
    (hv : validForStep today conv.step body = false) :
    (whatsapp today db from_number body).1 = db := by
  unfold whatsapp whatsappCore
  rw [ensureConv_of_some h]
  obtain ⟨h1, h2, h3, h4, h5, h6, h7, h8, h9, h10, h11, h12⟩ := not_global_ne hg
  rw [if_neg (by tauto), if_neg (by tauto), if_neg (by tauto), if_neg (by tauto),
    if_neg (by tauto)]
  unfold stepDispatch
  rw [h]
  dsimp only
  simp only [List.mem_cons, List.mem_singleton, List.not_mem_nil, or_false] at hstep
  rcases hstep with hs | hs | hs | hs | hs | hs
  · rw [hs]
    rfl
  · rw [hs] at hv ⊢
    have hnone : parse_tyre_size body = none :=
      isSome_false_eq_none (by simpa [validForStep] using hv)
    rw [hnone]
    rfl
  · rw [hs] at hv ⊢
    have hnone : parse_postcode body = none :=
      isSome_false_eq_none (by simpa [validForStep] using hv)
    rw [hnone]
    rfl
  · rw [hs] at hv ⊢
    have hnone : budget_map (norm_lower body) = none :=
      isSome_false_eq_none (by simpa [validForStep] using hv)
    rw [hnone]
    rfl
  · rw [hs] at hv ⊢
    have hnone : parse_date_yyyy_mm_dd today body = none :=
      isSome_false_eq_none (by simpa [validForStep] using hv)
    rw [hnone]
    rfl
  · rw [hs] at hv ⊢
    have hnone : parse_time_hh_mm body = none :=
      isSome_false_eq_none (by simpa [validForStep] using hv)
    rw [hnone]
    rfl

/-- Witness for C5: `"hello"` at `ASK_TYRE` changes nothing. -/
theorem C5_witness :
    isGlobalCmd (norm_lower "hello") = false ∧
    validForStep ⟨2026, 1, 1⟩ "ASK_TYRE" "hello" = false ∧
    (whatsapp ⟨2026, 1, 1⟩
        (⟨[("u", ⟨"ASK_TYRE", none, none, none, none, none⟩)], []⟩ : DB) "u" "hello").1 =
      (⟨[("u", ⟨"ASK_TYRE", none, none, none, none, none⟩)], []⟩ : DB) := by
  refine ⟨by decide, by decide, ?_⟩
  exact C5_invalid_input_preserves_state ⟨2026, 1, 1⟩
    (⟨[("u", ⟨"ASK_TYRE", none, none, none, none, none⟩)], []⟩ : DB) "u" "hello"
    ⟨"ASK_TYRE", none, none, none, none, none⟩
    (by decide) (by decide) (by decide) (by decide)

/-! ### Lemmas about the size normalizer (for C8) -/

lemma pyDigit_facts {c : Char} (h : pyDigit c = true) :
    pyWs c = false ∧ (c == ' ') = false ∧ c ≠ 'R' ∧ c ≠ '/' ∧ c ≠ '-' ∧ c ≠ ':' := by
  have hb : 48 ≤ c.toNat ∧ c.toNat ≤ 57 := by simpa [pyDigit] using h
  refine ⟨?_, ?_, ?_, ?_, ?_, ?_⟩
  · cases hw : pyWs c
    · rfl
    · exfalso
      simp only [pyWs, Bool.or_eq_true, beq_iff_eq] at hw
      rcases hw with ((((rfl | rfl) | rfl) | rfl) | rfl) | rfl <;> revert hb <;> decide
  · cases hsp : (c == ' ')
    · rfl
    · exfalso
      rw [beq_iff_eq] at hsp
      subst hsp
      revert hb
      decide
  · intro hEq; subst hEq; revert hb; decide
  · intro hEq; subst hEq; revert hb; decide
  · intro hEq; subst hEq; revert hb; decide
  · intro hEq; subst hEq; revert hb; decide

lemma dropWhile_pyWs_eq_self {l : List Char} (h : ∀ c ∈ l, pyWs c = false) :
    l.dropWhile pyWs = l := by
  cases l with
  | nil => rfl
  | cons c t => simp [List.dropWhile_cons, h c (by simp)]

lemma stripChars_eq_self {l : List Char} (h : ∀ c ∈ l, pyWs c = false) :
    stripChars l = l := by
  unfold stripChars
  rw [dropWhile_pyWs_eq_self h,
    dropWhile_pyWs_eq_self (fun c hc => h c (List.mem_reverse.mp hc)),
    List.reverse_reverse]

lemma take3Digits_some : ∀ {cs w rest}, take3Digits cs = some (w, rest) →
    ∃ a b c, w = [a, b, c] ∧ pyDigit a = true ∧ pyDigit b = true ∧ pyDigit c = true ∧
      cs = a :: b :: c :: rest
  | [], _, _, h => by simp [take3Digits] at h
  | [a], _, _, h => by simp [take3Digits] at h
  | [a, b], _, _, h => by simp [take3Digits] at h
  | a :: b :: c :: t, w, rest, h => by
    simp only [take3Digits] at h
    by_cases hd : pyDigit a = true ∧ pyDigit b = true ∧ pyDigit c = true
    · rw [if_pos hd] at h
      simp only [Option.some.injEq, Prod.mk.injEq] at h
      obtain ⟨hw, hr⟩ := h
      exact ⟨a, b, c, hw.symm, hd.1, hd.2.1, hd.2.2, by simp [← hr]⟩
    · rw [if_neg hd] at h
      exact absurd h (by simp)

lemma take2Digits_some : ∀ {cs w rest}, take2Digits cs = some (w, rest) →
    ∃ a b, w = [a, b] ∧ pyDigit a = true ∧ pyDigit b = true ∧ cs = a :: b :: rest
  | [], _, _, h => by simp [take2Digits] at h
  | [a], _, _, h => by simp [take2Digits] at h
  | a :: b :: t, w, rest, h => by
    simp only [take2Digits] at h
    by_cases hd : pyDigit a = true ∧ pyDigit b = true
    · rw [if_pos hd] at h
      simp only [Option.some.injEq, Prod.mk.injEq] at h
      obtain ⟨hw, hr⟩ := h
      exact ⟨a, b, hw.symm, hd.1, hd.2, by simp [← hr]⟩
    · rw [if_neg hd] at h
      exact absurd h (by simp)

/-- Every capture group of a successful `TYRE_PATTERN` match is a digit
string of the right width. -/
lemma tyreMatch_some {cs w a rim : List Char} (h : tyreMatch cs = some (w, a, rim)) :
    (∃ x y z, w = [x, y, z] ∧ pyDigit x = true ∧ pyDigit y = true ∧ pyDigit z = true) ∧
    (∃ x y, a = [x, y] ∧ pyDigit x = true ∧ pyDigit y = true) ∧
    (∃ x y, rim = [x, y] ∧ pyDigit x = true ∧ pyDigit y = true) := by
  unfold tyreMatch at h
  cases h3 : take3Digits (skipWs cs) with
  | none => rw [h3] at h; exact absurd h (by simp)
  | some p1 =>
    obtain ⟨w0, r1⟩ := p1
    rw [h3] at h
    dsimp only at h
    cases h4 : expectChar '/' (skipWs r1) with
    | none => rw [h4] at h; exact absurd h (by simp)
    | some r2 =>
      rw [h4] at h
      dsimp only at h
      cases h5 : take2Digits (skipWs r2) with
      | none => rw [h5] at h; exact absurd h (by simp)
      | some p2 =>
        obtain ⟨a0, r3⟩ := p2
        rw [h5] at h
        dsimp only at h
        cases h6 : take2Digits (skipWs
            (match skipWs r3 with
             | c :: rest => if c = 'R' ∨ c = 'r' then rest else c :: rest
             | [] => [])) with
        | none => rw [h6] at h; exact absurd h (by simp)
        | some p3 =>
          obtain ⟨rim0, r6⟩ := p3
          rw [h6] at h
          dsimp only at h
          by_cases h7 : skipWs r6 = []
          · rw [if_pos h7] at h
            simp only [Option.some.injEq, Prod.mk.injEq] at h
            obtain ⟨hw, ha, hrim⟩ := h
            subst hw; subst ha; subst hrim
            obtain ⟨x, y, z, hw0, d1, d2, d3, -⟩ := take3Digits_some h3
            obtain ⟨x2, y2, ha0, d4, d5, -⟩ := take2Digits_some h5
            obtain ⟨x3, y3, hr0, d6, d7, -⟩ := take2Digits_some h6
            exact ⟨⟨x, y, z, hw0, d1, d2, d3⟩, ⟨x2, y2, ha0, d4, d5⟩,
              ⟨x3, y3, hr0, d6, d7⟩⟩
          · rw [if_neg h7] at h
            exact absurd h (by simp)

/-- Evaluating the matcher on a canonical `DDD/DDrDD` character list. -/
lemma tyreMatch_canonical {w1 w2 w3 a1 a2 r1 r2 : Char}
    (d1 : pyDigit w1 = true) (d2 : pyDigit w2 = true) (d3 : pyDigit w3 = true)
    (d4 : pyDigit a1 = true) (d5 : pyDigit a2 = true)
    (d6 : pyDigit r1 = true) (d7 : pyDigit r2 = true) :
    tyreMatch [w1, w2, w3, '/', a1, a2, 'r', r1, r2] =
      some ([w1, w2, w3], [a1, a2], [r1, r2]) := by
  have f1 := pyDigit_facts d1
  have f4 := pyDigit_facts d4
  have f6 := pyDigit_facts d6
  simp [tyreMatch, skipWs, take3Digits, take2Digits, expectChar,
    List.dropWhile_cons, f1.1, f4.1, f6.1, d1, d2, d3, d4, d5, d6, d7,
    show pyWs '/' = false from rfl, show pyWs 'r' = false from rfl]

/-- `parse_tyre_size` accepts its own canonical output unchanged. -/
lemma parse_tyre_size_canonical {w1 w2 w3 a1 a2 r1 r2 : Char}
    (d1 : pyDigit w1 = true) (d2 : pyDigit w2 = true) (d3 : pyDigit w3 = true)
    (d4 : pyDigit a1 = true) (d5 : pyDigit a2 = true)
    (d6 : pyDigit r1 = true) (d7 : pyDigit r2 = true) :
    parse_tyre_size (([w1, w2, w3] ++ '/' :: [a1, a2] ++ 'R' :: [r1, r2]).asString) =
      some (([w1, w2, w3] ++ '/' :: [a1, a2] ++ 'R' :: [r1, r2]).asString) := by
  have f1 := pyDigit_facts d1
  have f2 := pyDigit_facts d2
  have f3 := pyDigit_facts d3
  have f4 := pyDigit_facts d4
  have f5 := pyDigit_facts d5
  have f6 := pyDigit_facts d6
  have f7 := pyDigit_facts d7
  have hdata : (([w1, w2, w3] ++ '/' :: [a1, a2] ++ 'R' :: [r1, r2]).asString).data =
      [w1, w2, w3, '/', a1, a2, 'R', r1, r2] := rfl
  unfold parse_tyre_size
  rw [hdata]
  rw [stripChars_eq_self]
  · rw [List.filter_eq_self.mpr]
    · simp only [List.map_cons, List.map_nil, if_neg f1.2.2.1, if_neg f2.2.2.1,
        if_neg f3.2.2.1, if_neg f4.2.2.1, if_neg f5.2.2.1, if_neg f6.2.2.1,
        if_neg f7.2.2.1, if_neg (show ('/' : Char) ≠ 'R' by decide),
        eq_self_iff_true, if_true, ite_true]
      rw [tyreMatch_canonical d1 d2 d3 d4 d5 d6 d7]
    · intro c hc
      simp only [List.mem_cons, List.not_mem_nil, or_false] at hc
      rcases hc with rfl | rfl | rfl | rfl | rfl | rfl | rfl | rfl | rfl
      · simp [f1.2.1]
      · simp [f2.2.1]
      · simp [f3.2.1]
      · decide
      · simp [f4.2.1]
      · simp [f5.2.1]
      · decide
      · simp [f6.2.1]
      · simp [f7.2.1]
  · intro c hc
    simp only [List.mem_cons, List.not_mem_nil, or_false] at hc
    rcases hc with rfl | rfl | rfl | rfl | rfl | rfl | rfl | rfl | rfl
    · exact f1.1
    · exact f2.1
    · exact f3.1
    · rfl
    · exact f4.1
    · exact f5.1
    · rfl
    · exact f6.1
    · exact f7.1

/-- C8: for every raw input accepted by the size normalizer, re-normalizing
the canonical output it produced returns that same output — the canonical
form is a fixed point of `parse_tyre_size`. -/
theorem C8_size_normalizer_idempotent (s v : String)
    (h : parse_tyre_size s = some v) : parse_tyre_size v = some v := by
  unfold parse_tyre_size at h
  cases hm : tyreMatch (((stripChars s.data).filter (fun c => !(c == ' '))).map
      (fun c => if c = 'R' then 'r' else c)) with
  | none => rw [hm] at h; exact absurd h (by simp)
  | some g =>
    obtain ⟨w, a, rim⟩ := g
    rw [hm] at h
    dsimp only at h
    obtain ⟨⟨w1, w2, w3, hw, d1, d2, d3⟩, ⟨a1, a2, ha, d4, d5⟩,
      ⟨r1, r2, hrim, d6, d7⟩⟩ := tyreMatch_some hm
    subst hw; subst ha; subst hrim
    have hv : v = ([w1, w2, w3] ++ '/' :: [a1, a2] ++ 'R' :: [r1, r2]).asString :=
      (Option.some.inj h).symm
    subst hv
    exact parse_tyre_size_canonical d1 d2 d3 d4 d5 d6 d7

/-- Witness for C8 at a concrete accepted input. -/
theorem C8_witness :
    parse_tyre_size " 225/40 r 18 " = some "225/40R18" ∧
    parse_tyre_size "225/40R18" = some "225/40R18" :=
  ⟨by decide, C8_size_normalizer_idempotent " 225/40 r 18 " "225/40R18" (by decide)⟩

/-! ### Lemmas for the state invariant (C7) -/

lemma convInv_of_lookup {l : List (String × Conv)} {uid : String} {c : Conv}
    (hinv : ∀ p ∈ l, convInv p.2) (h : lookupConv l uid = some c) : convInv c := by
  induction l with
  | nil => simp [lookupConv] at h
  | cons p t ih =>
    by_cases hp : p.1 = uid
    · simp only [lookupConv, if_pos hp] at h
      cases h
      exact hinv p (by simp)
    · simp only [lookupConv, if_neg hp] at h
      exact ih (fun q hq => hinv q (by simp [hq])) h

lemma dbInv_upsertConv {db : DB} {uid : String} {f : Conv → Conv}
    (hdb : dbInv db)
    (hf : ∀ c, convInv c → convInv (f c))
    (hd : convInv (f defaultConv)) : dbInv (upsertConv db uid f) := by
  unfold upsertConv
  cases h : lookupConv db.convs uid with
  | none =>
    intro p hp
    rcases List.mem_cons.mp hp with rfl | hm
    · exact hd
    · exact hdb p hm
  | some c =>
    intro p hp
    obtain ⟨q, hq, rfl⟩ := List.mem_map.mp hp
    by_cases hq1 : q.1 = uid
    · rw [if_pos hq1]
      exact hf c (convInv_of_lookup hdb h)
    · rw [if_neg hq1]
      exact hdb q hq

lemma convInv_cleared (c : Conv) (step : String) (hs : step ∈ stepNames) :
    convInv { c with
      step := step, tyre_size := none, postcode := none,
      budget := none, preferred_date := none, preferred_time := none } :=
  ⟨hs, Or.inl rfl, Or.inl rfl, Or.inl rfl, Or.inl rfl, Or.inl rfl⟩

lemma dbInv_reset_conv {db : DB} (uid : String) (hdb : dbInv db) :
    dbInv (reset_conv db uid) :=
  dbInv_upsertConv hdb (fun c _ => convInv_cleared c "MENU" (by simp [stepNames]))
    (convInv_cleared defaultConv "MENU" (by simp [stepNames]))

lemma dbInv_create_booking {db : DB} (uid : String) (hdb : dbInv db) :
    dbInv (create_booking_from_conv db uid).1 := by
  intro p hp
  rw [convs_create_booking] at hp
  exact hdb p hp

lemma dbInv_set_menu {db : DB} (uid : String) (hdb : dbInv db) :
    dbInv (upsertConv db uid (fun c => { c with step := "MENU" })) :=
  dbInv_upsertConv hdb (fun c hc => ⟨by simp [stepNames], hc.2⟩)
    ⟨by simp [stepNames], Or.inl rfl, Or.inl rfl, Or.inl rfl, Or.inl rfl, Or.inl rfl⟩

lemma dbInv_ensureConv {db : DB} (uid : String) (hdb : dbInv db) :
    dbInv (ensureConv db uid) := by
  unfold ensureConv
  cases h : get_conv db uid with
  | some c => exact hdb
  | none => exact dbInv_set_menu uid hdb

lemma dbInv_stepDispatch (today : PDate) (db : DB) (uid text body : String)
    (hdb : dbInv db) : dbInv (stepDispatch today db uid text body).1 := by
  unfold stepDispatch
  cases hc : get_conv db uid with
  | none => exact hdb
  | some conv =>
    dsimp only
    split
    · exact hdb
    · split
      · split
        · exact hdb
        · rename_i tyre hp
          exact dbInv_upsertConv hdb
            (fun c hcv => ⟨by simp [stepNames], Or.inr ⟨body, hp⟩, hcv.2.2⟩)
            ⟨by simp [stepNames], Or.inr ⟨body, hp⟩, Or.inl rfl, Or.inl rfl,
              Or.inl rfl, Or.inl rfl⟩
      · split
        · split
          · exact hdb
          · rename_i pc hp
            exact dbInv_upsertConv hdb
              (fun c hcv => ⟨by simp [stepNames], hcv.2.1, Or.inr ⟨body, hp⟩,
                hcv.2.2.2⟩)
              ⟨by simp [stepNames], Or.inl rfl, Or.inr ⟨body, hp⟩, Or.inl rfl,
                Or.inl rfl, Or.inl rfl⟩
        · split
          · split
            · exact hdb
            · rename_i bud hp
              exact dbInv_upsertConv hdb
                (fun c hcv => ⟨by simp [stepNames], hcv.2.1, hcv.2.2.1,
                  Or.inr ⟨text, hp⟩, hcv.2.2.2.2⟩)
                ⟨by simp [stepNames], Or.inl rfl, Or.inl rfl, Or.inr ⟨text, hp⟩,
                  Or.inl rfl, Or.inl rfl⟩
          · split
            · split
              · exact hdb
              · rename_i d hp
                exact dbInv_upsertConv hdb
                  (fun c hcv => ⟨by simp [stepNames], hcv.2.1, hcv.2.2.1,
                    hcv.2.2.2.1, Or.inr ⟨today, body, hp⟩, hcv.2.2.2.2.2⟩)
                  ⟨by simp [stepNames], Or.inl rfl, Or.inl rfl, Or.inl rfl,
                    Or.inr ⟨today, body, hp⟩, Or.inl rfl⟩
            · split
              · split
                · exact hdb
                · rename_i tm hp
                  have hdb2 : dbInv (upsertConv db uid (fun c =>
                      { c with step := "CONFIRM", preferred_time := some tm })) :=
                    dbInv_upsertConv hdb
                      (fun c hcv => ⟨by simp [stepNames], hcv.2.1, hcv.2.2.1,
                        hcv.2.2.2.1, hcv.2.2.2.2.1, Or.inr ⟨body, hp⟩⟩)
                      ⟨by simp [stepNames], Or.inl rfl, Or.inl rfl, Or.inl rfl,
                        Or.inl rfl, Or.inr ⟨body, hp⟩⟩
                  split
                  · exact hdb2
                  · exact hdb2
              · split
                · split
                  · split
                    · exact dbInv_reset_conv uid (dbInv_create_booking uid hdb)
                    · exact dbInv_reset_conv uid (dbInv_create_booking uid hdb)
                  · split
                    · exact hdb
                    · exact hdb
                · exact dbInv_set_menu uid hdb

lemma dbInv_whatsappCore (today : PDate) (db : DB) (uid text body : String)
    (hdb : dbInv db) : dbInv (whatsappCore today db uid text body).1 := by
  unfold whatsappCore
  split
  · exact dbInv_set_menu uid hdb
  · split
    · exact dbInv_reset_conv uid hdb
    · split
      · exact dbInv_set_menu uid hdb
      · split
        · exact hdb
        · split
          · exact dbInv_upsertConv hdb
              (fun c _ => convInv_cleared c "ASK_TYRE" (by simp [stepNames]))
              (convInv_cleared defaultConv "ASK_TYRE" (by simp [stepNames]))
          · exact dbInv_stepDispatch today db uid text body hdb

/-- C7: the message handler preserves the state invariant: every stored
step is in the closed step enumeration and every stored field value was
produced by its field's normalizer.  Together with the (trivially
invariant) empty store this covers every reachable conversation state. -/
theorem C7_state_invariant (today : PDate) (db : DB) (from_number body : String)
    (hdb : dbInv db) : dbInv (whatsapp today db from_number body).1 := by
  unfold whatsapp
  exact dbInv_whatsappCore today _ _ _ body
    (dbInv_ensureConv (effectiveUserId from_number) hdb)

/-- Witness for C7: the invariant holds for the empty store and is carried
through a handler call. -/
theorem C7_witness :
    dbInv (⟨[], []⟩ : DB) ∧
    dbInv (whatsapp ⟨2026, 1, 1⟩ (⟨[], []⟩ : DB) "u" "hello").1 := by
  have h0 : dbInv (⟨[], []⟩ : DB) := by intro p hp; simp at hp
  exact ⟨h0, C7_state_invariant ⟨2026, 1, 1⟩ (⟨[], []⟩ : DB) "u" "hello" h0⟩

/-! ### Lemmas about the date normalizer (C6) -/

lemma char_eq_of_toNat {c d : Char} (h : c.toNat = d.toNat) : c = d :=
  Char.ext (UInt32.ext h)

lemma charsToNat1 (a : Char) : charsToNat [a] = digitVal a := by
  simp [charsToNat, List.foldl]

lemma charsToNat2 (a b : Char) :
    charsToNat [a, b] = 10 * digitVal a + digitVal b := by
  simp [charsToNat, List.foldl]

lemma charsToNat4 (a b c d : Char) :
    charsToNat [a, b, c, d] =
      1000 * digitVal a + 100 * digitVal b + 10 * digitVal c + digitVal d := by
  simp [charsToNat, List.foldl]
  ring

lemma daysInMonth_le (y m : Nat) : daysInMonth y m ≤ 31 := by
  unfold daysInMonth
  split
  · split <;> omega
  · split <;> omega

lemma expectChar_some : ∀ {c : Char} {cs rest : List Char},
    expectChar c cs = some rest → cs = c :: rest
  | _, [], _, h => by simp [expectChar] at h
  | c, x :: t, rest, h => by
    simp only [expectChar] at h
    by_cases hx : x = c
    · rw [if_pos hx] at h
      cases h
      rw [hx]
    · rw [if_neg hx] at h
      exact absurd h (by simp)

lemma read4Digits_some : ∀ {cs : List Char} {y : Nat} {rest : List Char},
    read4Digits cs = some (y, rest) →
    ∃ ys, cs = ys ++ rest ∧ ys.length = 4 ∧ allDigits ys = true ∧ charsToNat ys = y
  | [], _, _, h => by simp [read4Digits] at h
  | [a], _, _, h => by simp [read4Digits] at h
  | [a, b], _, _, h => by simp [read4Digits] at h
  | [a, b, c], _, _, h => by simp [read4Digits] at h
  | a :: b :: c :: d :: t, y, rest, h => by
    simp only [read4Digits] at h
    by_cases hd : pyDigit a = true ∧ pyDigit b = true ∧ pyDigit c = true ∧ pyDigit d = true
    · rw [if_pos hd] at h
      simp only [Option.some.injEq, Prod.mk.injEq] at h
      obtain ⟨hy, hr⟩ := h
      exact ⟨[a, b, c, d], by simp [← hr], rfl,
        by simp [allDigits, hd.1, hd.2.1, hd.2.2.1, hd.2.2.2],
        by rw [charsToNat4, hy]⟩
    · rw [if_neg hd] at h
      exact absurd h (by simp)

lemma readMonthTok_some : ∀ {cs : List Char} {m : Nat} {rest : List Char},
    readMonthTok cs = some (m, rest) →
    ∃ ms, cs = ms ++ rest ∧ 1 ≤ ms.length ∧ ms.length ≤ 2 ∧ allDigits ms = true ∧
      charsToNat ms = m ∧ 1 ≤ m ∧ m ≤ 12
  | [], _, _, h => by simp [readMonthTok] at h
  | [c1], m, rest, h => by
    simp only [readMonthTok] at h
    by_cases hc : 49 ≤ c1.toNat ∧ c1.toNat ≤ 57
    · rw [if_pos hc] at h
      simp only [Option.some.injEq, Prod.mk.injEq] at h
      obtain ⟨hm, hr⟩ := h
      have hdv : digitVal c1 = c1.toNat - 48 := rfl
      refine ⟨[c1], by simp [← hr], by simp, by simp, ?_, by rw [charsToNat1, hm],
        by omega, by omega⟩
      simp only [allDigits, List.all_cons, List.all_nil, Bool.and_true, pyDigit,
        decide_eq_true_eq]
      omega
    · rw [if_neg hc] at h
      exact absurd h (by simp)
  | c1 :: c2 :: t, m, rest, h => by
    simp only [readMonthTok] at h
    have h49 : Char.toNat '1' = 49 := by decide
    have h48 : Char.toNat '0' = 48 := by decide
    by_cases h1 : c1 = '1' ∧ 48 ≤ c2.toNat ∧ c2.toNat ≤ 50
    · rw [if_pos h1] at h
      simp only [Option.some.injEq, Prod.mk.injEq] at h
      obtain ⟨hm, hr⟩ := h
      obtain ⟨rfl, hb1, hb2⟩ := h1
      have hdv : digitVal c2 = c2.toNat - 48 := rfl
      have hdv1 : digitVal '1' = 1 := by decide
      refine ⟨['1', c2], by simp [← hr], by simp, by simp, ?_,
        by rw [charsToNat2, hdv1]; omega, by omega, by omega⟩
      simp only [allDigits, List.all_cons, List.all_nil, Bool.and_true,
        Bool.and_eq_true, pyDigit, decide_eq_true_eq]
      exact ⟨by omega, by omega⟩
    · rw [if_neg h1] at h
      by_cases h2 : c1 = '0' ∧ 49 ≤ c2.toNat ∧ c2.toNat ≤ 57
      · rw [if_pos h2] at h
        simp only [Option.some.injEq, Prod.mk.injEq] at h
        obtain ⟨hm, hr⟩ := h
        obtain ⟨rfl, hb1, hb2⟩ := h2
        have hdv : digitVal c2 = c2.toNat - 48 := rfl
        have hdv0 : digitVal '0' = 0 := by decide
        refine ⟨['0', c2], by simp [← hr], by simp, by simp, ?_,
          by rw [charsToNat2, hdv0]; omega, by omega, by omega⟩
        simp only [allDigits, List.all_cons, List.all_nil, Bool.and_true,
          Bool.and_eq_true, pyDigit, decide_eq_true_eq]
        exact ⟨by omega, by omega⟩
      · rw [if_neg h2] at h
        by_cases h3 : 49 ≤ c1.toNat ∧ c1.toNat ≤ 57
        · rw [if_pos h3] at h
          simp only [Option.some.injEq, Prod.mk.injEq] at h
          obtain ⟨hm, hr⟩ := h
          have hdv : digitVal c1 = c1.toNat - 48 := rfl
          refine ⟨[c1], by simp [← hr], by simp, by simp, ?_, by rw [charsToNat1, hm],
            by omega, by omega⟩
          simp only [allDigits, List.all_cons, List.all_nil, Bool.and_true, pyDigit,
            decide_eq_true_eq]
          omega
        · rw [if_neg h3] at h
          exact absurd h (by simp)

lemma readDayTok_some : ∀ {cs : List Char} {d : Nat} {rest : List Char},
    readDayTok cs = some (d, rest) →
    ∃ ds, cs = ds ++ rest ∧ 1 ≤ ds.length ∧ ds.length ≤ 2 ∧ allDigits ds = true ∧
      charsToNat ds = d ∧ 1 ≤ d ∧ d ≤ 31
  | [], _, _, h => by simp [readDayTok] at h
  | [c1], d, rest, h => by
    simp only [readDayTok] at h
    by_cases hc : 49 ≤ c1.toNat ∧ c1.toNat ≤ 57
    · rw [if_pos hc] at h
      simp only [Option.some.injEq, Prod.mk.injEq] at h
      obtain ⟨hm, hr⟩ := h
      have hdv : digitVal c1 = c1.toNat - 48 := rfl
      refine ⟨[c1], by simp [← hr], by simp, by simp, ?_, by rw [charsToNat1, hm],
        by omega, by omega⟩
      simp only [allDigits, List.all_cons, List.all_nil, Bool.and_true, pyDigit,
        decide_eq_true_eq]
      omega
    · rw [if_neg hc] at h
      exact absurd h (by simp)
  | c1 :: c2 :: t, d, rest, h => by
    simp only [readDayTok] at h
    by_cases h1 : c1 = '3' ∧ (c2 = '0' ∨ c2 = '1')
    · rw [if_pos h1] at h
      simp only [Option.some.injEq, Prod.mk.injEq] at h
      obtain ⟨hm, hr⟩ := h
      obtain ⟨rfl, hc2⟩ := h1
      refine ⟨['3', c2], by simp [← hr], by simp, by simp, ?_, ?_, ?_, ?_⟩
      · rcases hc2 with rfl | rfl <;> decide
      · rw [charsToNat2]
        have hdv3 : digitVal '3' = 3 := by decide
        rcases hc2 with rfl | rfl <;> rw [hdv3, ← hm]
      · rcases hc2 with rfl | rfl <;> omega
      · rcases hc2 with rfl | rfl <;> rw [← hm] <;> decide
    · rw [if_neg h1] at h
      by_cases h2 : (c1 = '1' ∨ c1 = '2') ∧ pyDigit c2 = true
      · rw [if_pos h2] at h
        simp only [Option.some.injEq, Prod.mk.injEq] at h
        obtain ⟨hm, hr⟩ := h
        obtain ⟨hc1, hb⟩ := h2
        have hdv : digitVal c2 = c2.toNat - 48 := rfl
        have hb2 : 48 ≤ c2.toNat ∧ c2.toNat ≤ 57 := by
          simpa [pyDigit] using hb
        refine ⟨[c1, c2], by simp [← hr], by simp, by simp, ?_, by rw [charsToNat2, hm],
          ?_, ?_⟩
        · simp only [allDigits, List.all_cons, List.all_nil, Bool.and_true,
            Bool.and_eq_true, pyDigit, decide_eq_true_eq]
          rcases hc1 with rfl | rfl <;> exact ⟨by decide, by omega⟩
        · rcases hc1 with rfl | rfl
          · rw [← hm]
            have ht : Char.toNat '1' = 49 := by decide
            simp only [digitVal]
            omega
          · rw [← hm]
            have ht : Char.toNat '2' = 50 := by decide
            simp only [digitVal]
            omega
        · rcases hc1 with rfl | rfl
          · rw [← hm]
            have ht : Char.toNat '1' = 49 := by decide
            simp only [digitVal]
            omega
          · rw [← hm]
            have ht : Char.toNat '2' = 50 := by decide
            simp only [digitVal]
            omega
      · rw [if_neg h2] at h
        by_cases h3 : c1 = '0' ∧ 49 ≤ c2.toNat ∧ c2.toNat ≤ 57
        · rw [if_pos h3] at h
          simp only [Option.some.injEq, Prod.mk.injEq] at h
          obtain ⟨hm, hr⟩ := h
          obtain ⟨rfl, hb1, hb2⟩ := h3
          have hdv : digitVal c2 = c2.toNat - 48 := rfl
          have ht0 : Char.toNat '0' = 48 := by decide
          refine ⟨['0', c2], by simp [← hr], by simp, by simp, ?_,
            by rw [charsToNat2, ← hm]; simp only [digitVal]; omega,
            by rw [← hm]; simp only [digitVal]; omega,
            by rw [← hm]; simp only [digitVal]; omega⟩
          simp only [allDigits, List.all_cons, List.all_nil, Bool.and_true,
            Bool.and_eq_true, pyDigit, decide_eq_true_eq]
          exact ⟨by omega, by omega⟩
        · rw [if_neg h3] at h
          by_cases h4 : 49 ≤ c1.toNat ∧ c1.toNat ≤ 57
          · rw [if_pos h4] at h
            simp only [Option.some.injEq, Prod.mk.injEq] at h
            obtain ⟨hm, hr⟩ := h
            have hdv : digitVal c1 = c1.toNat - 48 := rfl
            refine ⟨[c1], by simp [← hr], by simp, by simp, ?_,
              by rw [charsToNat1, hm], by omega, by omega⟩
            simp only [allDigits, List.all_cons, List.all_nil, Bool.and_true,
              pyDigit, decide_eq_true_eq]
            omega
          · rw [if_neg h4] at h
            exact absurd h (by simp)

lemma read4Digits_append : ∀ {ys : List Char}, ys.length = 4 → allDigits ys = true →
    ∀ rest, read4Digits (ys ++ rest) = some (charsToNat ys, rest)
  | [], h, _, _ => by simp at h
  | [a], h, _, _ => by simp at h
  | [a, b], h, _, _ => by simp at h
  | [a, b, c], h, _, _ => by simp at h
  | a :: b :: c :: d :: e :: t, h, _, _ => by simp at h
  | [a, b, c, d], _, hd, rest => by
    simp only [allDigits, List.all_cons, List.all_nil, Bool.and_true,
      Bool.and_eq_true] at hd
    obtain ⟨d1, d2, d3, d4⟩ := hd
    simp only [List.cons_append, List.nil_append, read4Digits, charsToNat4]
    rw [if_pos ⟨d1, d2, d3, d4⟩]

lemma readMonthTok_append : ∀ {ms : List Char}, 1 ≤ ms.length → ms.length ≤ 2 →
    allDigits ms = true → 1 ≤ charsToNat ms → charsToNat ms ≤ 12 →
    ∀ {rest : List Char}, (rest = [] ∨ ∃ t, rest = '-' :: t) →
    readMonthTok (ms ++ rest) = some (charsToNat ms, rest)
  | [], h1, _, _, _, _, _, _ => by simp at h1
  | c :: c2 :: c3 :: t, _, h2, _, _, _, _, _ => by simp at h2
  | [c], _, _, hd, hlo, hhi, rest, hrest => by
    have hdig : 48 ≤ c.toNat ∧ c.toNat ≤ 57 := by
      simpa [allDigits, pyDigit] using hd
    have hv : charsToNat [c] = c.toNat - 48 := by rw [charsToNat1]; rfl
    have hlo2 := hlo
    rw [hv] at hlo2
    rcases hrest with rfl | ⟨t, rfl⟩
    · simp only [List.append_nil, readMonthTok]
      rw [if_pos ⟨by omega, hdig.2⟩, hv]
      rfl
    · simp only [List.cons_append, List.nil_append, readMonthTok]
      rw [if_neg (fun hcon => absurd hcon.2.1 (by decide)),
        if_neg (fun hcon => absurd hcon.2.1 (by decide)),
        if_pos ⟨by omega, hdig.2⟩, hv]
      rfl
  | [c1, c2], _, _, hd, hlo, hhi, rest, hrest => by
    have hdig : (48 ≤ c1.toNat ∧ c1.toNat ≤ 57) ∧ 48 ≤ c2.toNat ∧ c2.toNat ≤ 57 := by
      simpa [allDigits, pyDigit] using hd
    have hv : charsToNat [c1, c2] = 10 * (c1.toNat - 48) + (c2.toNat - 48) := by
      rw [charsToNat2]; rfl
    have hlo2 := hlo
    have hhi2 := hhi
    rw [hv] at hlo2 hhi2
    have hc1le : c1.toNat ≤ 49 := by omega
    by_cases h1 : c1.toNat = 49
    · have hc1 : c1 = '1' := char_eq_of_toNat h1
      subst hc1
      have ht1 : Char.toNat '1' = 49 := by decide
      simp only [List.cons_append, List.nil_append, readMonthTok]
      rw [if_pos ?hc1cond, hv]
      case hc1cond =>
        refine ⟨trivial, hdig.2.1, ?_⟩
        omega
      simp only [Option.some.injEq, Prod.mk.injEq, digitVal]
      constructor
      · omega
      · trivial
    · have h0 : c1.toNat = 48 := by omega
      have hc1 : c1 = '0' := char_eq_of_toNat h0
      subst hc1
      have ht0 : Char.toNat '0' = 48 := by decide
      simp only [List.cons_append, List.nil_append, readMonthTok]
      rw [if_neg (fun hcon => absurd hcon.1 (by decide)), if_pos ?hc0cond, hv]
      case hc0cond =>
        refine ⟨trivial, by omega, hdig.2.2⟩
      simp only [Option.some.injEq, Prod.mk.injEq, digitVal]
      constructor
      · omega
      · trivial

lemma readDayTok_run : ∀ {ds : List Char}, 1 ≤ ds.length → ds.length ≤ 2 →
    allDigits ds = true → 1 ≤ charsToNat ds → charsToNat ds ≤ 31 →
    readDayTok ds = some (charsToNat ds, [])
  | [], h1, _, _, _, _ => by simp at h1
  | c :: c2 :: c3 :: t, _, h2, _, _, _ => by simp at h2
  | [c], _, _, hd, hlo, hhi => by
    have hdig : 48 ≤ c.toNat ∧ c.toNat ≤ 57 := by
      simpa [allDigits, pyDigit] using hd
    have hv : charsToNat [c] = c.toNat - 48 := by rw [charsToNat1]; rfl
    have hlo2 := hlo
    rw [hv] at hlo2
    simp only [readDayTok]
    rw [if_pos ⟨by omega, hdig.2⟩, hv]
    rfl
  | [c1, c2], _, _, hd, hlo, hhi => by
    have hdig : (48 ≤ c1.toNat ∧ c1.toNat ≤ 57) ∧ 48 ≤ c2.toNat ∧ c2.toNat ≤ 57 := by
      simpa [allDigits, pyDigit] using hd
    have hv : charsToNat [c1, c2] = 10 * (c1.toNat - 48) + (c2.toNat - 48) := by
      rw [charsToNat2]; rfl
    have hlo2 := hlo
    have hhi2 := hhi
    rw [hv] at hlo2 hhi2
    have hc1le : c1.toNat ≤ 51 := by omega
    by_cases h3 : c1.toNat = 51
    · have hc1 : c1 = '3' := char_eq_of_toNat h3
      subst hc1
      have ht3 : Char.toNat '3' = 51 := by decide
      have hc2le : c2.toNat ≤ 49 := by omega
      by_cases h2c : c2.toNat = 48
      · have hc2 : c2 = '0' := char_eq_of_toNat h2c
        subst hc2
        decide
      · have hc2 : c2 = '1' := char_eq_of_toNat (by
          have ht1c : Char.toNat '1' = 49 := by decide
          omega)
        subst hc2
        decide
    · by_cases h12 : c1.toNat = 49 ∨ c1.toNat = 50
      · have hc1 : c1 = '1' ∨ c1 = '2' := by
          rcases h12 with h | h
          · exact Or.inl (char_eq_of_toNat h)
          · exact Or.inr (char_eq_of_toNat h)
        have ht1 : Char.toNat '1' = 49 := by decide
        have ht2 : Char.toNat '2' = 50 := by decide
        rcases hc1 with rfl | rfl
        · simp only [readDayTok]
          rw [if_neg (fun hcon => absurd hcon.1 (by decide)), if_pos ?h1cond, hv]
          case h1cond =>
            exact ⟨Or.inl trivial, by simp [pyDigit]; omega⟩
          rfl
        · simp only [readDayTok]
          rw [if_neg (fun hcon => absurd hcon.1 (by decide)), if_pos ?h2cond, hv]
          case h2cond =>
            exact ⟨Or.inr trivial, by simp [pyDigit]; omega⟩
          rfl
      · have h0 : c1.toNat = 48 := by omega
        have hc1 : c1 = '0' := char_eq_of_toNat h0
        subst hc1
        have ht0 : Char.toNat '0' = 48 := by decide
        simp only [readDayTok]
        rw [if_neg (fun hcon => absurd hcon.1 (by decide)),
          if_neg (fun hcon => hcon.1.elim (fun h => absurd h (by decide))
            (fun h => absurd h (by decide))),
          if_pos ?h0cond, hv]
        case h0cond =>
          exact ⟨trivial, by omega, hdig.2.2⟩
        simp only [Option.some.injEq, Prod.mk.injEq, digitVal]
        constructor
        · omega
        · trivial

lemma parseYMDChars_sound {cs : List Char} {y m d : Nat}
    (h : parseYMDChars cs = some (y, m, d)) :
    ∃ ys ms ds, cs = ys ++ '-' :: (ms ++ '-' :: ds) ∧
      ys.length = 4 ∧ allDigits ys = true ∧
      1 ≤ ms.length ∧ ms.length ≤ 2 ∧ allDigits ms = true ∧
      1 ≤ ds.length ∧ ds.length ≤ 2 ∧ allDigits ds = true ∧
      charsToNat ys = y ∧ charsToNat ms = m ∧ charsToNat ds = d := by
  unfold parseYMDChars at h
  cases h1 : read4Digits cs with
  | none => rw [h1] at h; exact absurd h (by simp)
  | some p1 =>
    obtain ⟨y0, r1⟩ := p1
    rw [h1] at h
    dsimp only at h
    cases h2 : expectChar '-' r1 with
    | none => rw [h2] at h; exact absurd h (by simp)
    | some r2 =>
      rw [h2] at h
      dsimp only at h
      cases h3 : readMonthTok r2 with
      | none => rw [h3] at h; exact absurd h (by simp)
      | some p2 =>
        obtain ⟨m0, r3⟩ := p2
        rw [h3] at h
        dsimp only at h
        cases h4 : expectChar '-' r3 with
        | none => rw [h4] at h; exact absurd h (by simp)
        | some r4 =>
          rw [h4] at h
          dsimp only at h
          cases h5 : readDayTok r4 with
          | none => rw [h5] at h; exact absurd h (by simp)
          | some p3 =>
            obtain ⟨d0, r5⟩ := p3
            rw [h5] at h
            dsimp only at h
            by_cases h6 : r5 = []
            · rw [if_pos h6] at h
              simp only [Option.some.injEq, Prod.mk.injEq] at h
              obtain ⟨hy, hm, hd2⟩ := h
              subst hy; subst hm; subst hd2; subst h6
              obtain ⟨ys, hys, hy4, hyd, hyv⟩ := read4Digits_some h1
              obtain ⟨ms, hms, hm1, hm2, hmd, hmv, -, -⟩ := readMonthTok_some h3
              obtain ⟨ds, hds, hd1, hdl2, hdd, hdv, -, -⟩ := readDayTok_some h5
              rw [List.append_nil] at hds
              refine ⟨ys, ms, ds, ?_, hy4, hyd, hm1, hm2, hmd, hd1, hdl2, hdd,
                hyv, hmv, hdv⟩
              rw [hys, expectChar_some h2, hms, expectChar_some h4, hds]
            · rw [if_neg h6] at h
              exact absurd h (by simp)

lemma parseYMDChars_complete {ys ms ds : List Char} (hy4 : ys.length = 4)
    (hyd : allDigits ys = true) (h1m : 1 ≤ ms.length) (h2m : ms.length ≤ 2)
    (hmd : allDigits ms = true) (hmlo : 1 ≤ charsToNat ms) (hmhi : charsToNat ms ≤ 12)
    (h1d : 1 ≤ ds.length) (h2d : ds.length ≤ 2) (hdd : allDigits ds = true)
    (hdlo : 1 ≤ charsToNat ds) (hdhi : charsToNat ds ≤ 31) :
    parseYMDChars (ys ++ '-' :: (ms ++ '-' :: ds)) =
      some (charsToNat ys, charsToNat ms, charsToNat ds) := by
  unfold parseYMDChars
  rw [read4Digits_append hy4 hyd]
  dsimp only
  rw [show expectChar '-' ('-' :: (ms ++ '-' :: ds)) = some (ms ++ '-' :: ds) from by
    simp [expectChar]]
  dsimp only
  rw [readMonthTok_append h1m h2m hmd hmlo hmhi (Or.inr ⟨ds, rfl⟩)]
  dsimp only
  rw [show expectChar '-' ('-' :: ds) = some ds from by simp [expectChar]]
  dsimp only
  rw [readDayTok_run h1d h2d hdd hdlo hdhi]
  simp

/-- C6 counterexample: the date normalizer does not require the exact
2-digit month / 2-digit day shape the claim states: `"2026-3-5"` fails the
strict shape but is accepted (with a past-free `today`) and canonicalized
to `"2026-03-05"`, because CPython's `strptime` `%m`/`%d` tokens also
accept single digits. -/
theorem C6_counterexample :
    strictYMDShape "2026-3-5" = false ∧
    parse_date_yyyy_mm_dd ⟨2026, 1, 1⟩ "2026-3-5" = some "2026-03-05" := by
  constructor <;> decide

/-- C6 amended: the date normalizer accepts an input if and only if, after
trimming, it consists of a 4-digit year, a hyphen, a month written with one
or two digits, a hyphen, and a day written with one or two digits, which
denote a valid calendar date (`datetime` bounds, leap years included) that
is not strictly before the current day `today`; every other input is a
validation failure. -/
theorem C6_amended_date_acceptance (today : PDate) (s : String) :
    (parse_date_yyyy_mm_dd today s).isSome = true ↔
    ∃ ys ms ds : List Char,
      stripChars s.data = ys ++ '-' :: (ms ++ '-' :: ds) ∧
      ys.length = 4 ∧ allDigits ys = true ∧
      1 ≤ ms.length ∧ ms.length ≤ 2 ∧ allDigits ms = true ∧
      1 ≤ ds.length ∧ ds.length ≤ 2 ∧ allDigits ds = true ∧
      validYMD (charsToNat ys) (charsToNat ms) (charsToNat ds) = true ∧
      dateLt ⟨charsToNat ys, charsToNat ms, charsToNat ds⟩ today = false := by
  constructor
  · intro h
    unfold parse_date_yyyy_mm_dd at h
    cases hp : parseYMDChars (stripChars s.data) with
    | none => rw [hp] at h; simp at h
    | some t =>
      obtain ⟨y, m, d⟩ := t
      rw [hp] at h
      dsimp only at h
      by_cases hv : validYMD y m d = true
      · rw [if_pos hv] at h
        by_cases hlt : dateLt ⟨y, m, d⟩ today = true
        · rw [if_pos hlt] at h
          simp at h
        · obtain ⟨ys, ms, ds, hcs, hy4, hyd, h1m, h2m, hmd, h1d, h2d, hdd,
            hyv, hmv, hdv⟩ := parseYMDChars_sound hp
          subst hyv; subst hmv; subst hdv
          exact ⟨ys, ms, ds, hcs, hy4, hyd, h1m, h2m, hmd, h1d, h2d, hdd, hv,
            Bool.eq_false_iff.mpr hlt⟩
      · rw [if_neg hv] at h
        simp at h
  · rintro ⟨ys, ms, ds, hcs, hy4, hyd, h1m, h2m, hmd, h1d, h2d, hdd, hval, hlt⟩
    unfold parse_date_yyyy_mm_dd
    rw [hcs]
    have hval2 : 1 ≤ charsToNat ys ∧ charsToNat ys ≤ 9999 ∧ 1 ≤ charsToNat ms ∧
        charsToNat ms ≤ 12 ∧ 1 ≤ charsToNat ds ∧
        charsToNat ds ≤ daysInMonth (charsToNat ys) (charsToNat ms) := by
      simpa [validYMD] using hval
    have hdm := daysInMonth_le (charsToNat ys) (charsToNat ms)
    rw [parseYMDChars_complete hy4 hyd h1m h2m hmd hval2.2.2.1 hval2.2.2.2.1
      h1d h2d hdd hval2.2.2.2.2.1 (by omega)]
    dsimp only
    rw [if_pos hval, hlt]
    simp

/-- C10: an empty sender identifier is substituted by the fixed user id
`"unknown"`, so a message with an empty sender is handled exactly like a
message from the user id `"unknown"` — one shared conversation row and one
shared booking history under that single key. -/
theorem C10_empty_sender_shared_key (today : PDate) (db : DB) (body : String) :
    effectiveUserId "" = "unknown" ∧
    whatsapp today db "" body = whatsapp today db "unknown" body := by
  refine ⟨rfl, ?_⟩
  unfold whatsapp
  rw [show effectiveUserId "" = effectiveUserId "unknown" from rfl]

end TyreBot
